import Mathlib

/-!
# Plugin manager component of the Remix IDE

A shallow embedding of
`apps/remix-ide/src/app/components/plugin-manager-component.js`.

* JavaScript strings are sequences of UTF-16 code units (`JSString`).
* `String.prototype.toLowerCase` / `toUpperCase` are language built-ins; they are
  taken as a parameter (`CaseMapping`), so the general theorems hold for every case
  conversion.  `asciiCase` is their restriction to ASCII text, `greekCase` their
  restriction to text of ASCII and Greek letters; both are used for the concrete
  scenarios.
* A value thrown by a collaborator is a `JSError`; it may lack a string `message`, and
  then `e.message.includes(...)` raises a `TypeError`.
* The app-manager and the engine are external collaborators.  The part of the
  app-manager the component reads is the record `AppManager`; the asynchronous
  operations of the collaborators are the fields of `Host`.  Each of them answers with a
  `Reply`: the events it emitted (with the app-manager state at that moment), the
  app-manager state it leaves, and its result or the error it threw.
* Every `async` method returns the result of its promise together with the new state
  of the component.
-/

namespace PluginManager

/-! ## Strings -/

/-- A JavaScript string: its UTF-16 code units. -/
abbrev JSString := List Nat

/-- The UTF-16 code units of a string literal. -/
def utf16 (s : String) : JSString :=
  s.toList.flatMap fun c =>
    if c.toNat < 65536 then [c.toNat]
    else [55296 + (c.toNat - 65536) / 1024, 56320 + (c.toNat - 65536) % 1024]

/-- The method `String.prototype.includes`: `search` occurs in `s` as a contiguous run. -/
def includes (s search : JSString) : Bool := decide (search <:+: s)

/-- The operator `a < b` on strings: lexicographic order of the code units. -/
def lessThan : JSString → JSString → Bool
  | [], [] => false
  | [], _ :: _ => true
  | _ :: _, [] => false
  | a :: as, b :: bs => if a < b then true else if b < a then false else lessThan as bs

/-- The built-in case conversions `toLowerCase` and `toUpperCase`. -/
structure CaseMapping where
  toLowerCase : JSString → JSString
  toUpperCase : JSString → JSString

/-- Case conversion of ASCII text: only the code units of `A`..`Z` / `a`..`z` change. -/
def asciiCase : CaseMapping where
  toLowerCase := fun s => s.map fun u => if 65 ≤ u ∧ u ≤ 90 then u + 32 else u
  toUpperCase := fun s => s.map fun u => if 97 ≤ u ∧ u ≤ 122 then u - 32 else u

/-- A letter with an upper and a lower case, among the ASCII letters and the Greek letters
`U+0391`..`U+03C9`. -/
def isCased (u : Nat) : Bool :=
  (65 ≤ u && u ≤ 90) || (97 ≤ u && u ≤ 122) || (913 ≤ u && u ≤ 929) ||
    (931 ≤ u && u ≤ 937) || (945 ≤ u && u ≤ 969)

/-- Lower-casing from left to right, `afterCased` telling whether the code unit before is
a cased letter.  Capital sigma `U+03A3` becomes final sigma `U+03C2` when it follows a
cased letter and no cased letter follows it (the `Final_Sigma` condition of Unicode
special casing), and `U+03C3` otherwise. -/
def lowerInContext : Bool → JSString → JSString
  | _, [] => []
  | afterCased, u :: rest =>
    let beforeCased :=
      match rest with
      | v :: _ => isCased v
      | [] => false
    let lower :=
      if 65 ≤ u ∧ u ≤ 90 then u + 32
      else if u = 931 then (if afterCased && !beforeCased then 962 else 963)
      else if 913 ≤ u ∧ u ≤ 929 then u + 32
      else if 932 ≤ u ∧ u ≤ 937 then u + 32
      else u
    lower :: lowerInContext (isCased u) rest

/-- Case conversion of text made of ASCII letters, digits, spaces and the Greek letters
`U+0391`..`U+03C9`, as `toLowerCase` and `toUpperCase` perform it: the Unicode default
case conversion, with the context-sensitive lower-casing of capital sigma. -/
def greekCase : CaseMapping where
  toLowerCase := lowerInContext false
  toUpperCase := fun s => s.map fun u =>
    if 97 ≤ u ∧ u ≤ 122 then u - 32
    else if u = 962 then 931
    else if 945 ≤ u ∧ u ≤ 969 then u - 32
    else u

/-- Two code units that are the same letter in either case: they are equal, or one is
an ASCII capital letter and the other the matching small letter. -/
def sameLetter (a b : Nat) : Bool :=
  a == b || (65 ≤ a && a ≤ 90 && b == a + 32) || (65 ≤ b && b ≤ 90 && a == b + 32)

/-- Two strings that are equal when letter case is ignored. -/
def equalIgnoringCase : JSString → JSString → Bool
  | [], [] => true
  | a :: as, b :: bs => sameLetter a b && equalIgnoringCase as bs
  | _, _ => false

/-- The string `search`, compared ignoring letter case, is a substring of `s`: it is
equal, ignoring case, to the run of its length at some position of `s`. -/
def occursIgnoringCase (s search : JSString) : Bool :=
  s.tails.any fun t => equalIgnoringCase (t.take search.length) search

/-- The method `Array.prototype.sort(compare)`: a stable sort, `a` stays before `b`
when `compare(a, b) ≤ 0`. -/
def sort {α : Type} (compare : α → α → Int) (l : List α) : List α :=
  l.insertionSort fun a b => compare a b ≤ 0

/-! ## Data model -/

/-- A plugin profile, with the fields the component reads. -/
structure Profile where
  name : JSString
  displayName : Option JSString
  location : Option JSString
deriving DecidableEq

/-- The part of the app-manager the component reads: `actives`, the result of
`getAll()`, the predicates `isRequired` and `isDependent`; `hidden` is every other
piece of state of the collaborators. -/
structure AppManager (ε : Type) where
  actives : List JSString
  getAll : List Profile
  isRequired : JSString → Bool
  isDependent : JSString → Bool
  hidden : ε

/-- A value a collaborator rejects with, as `catch (e)` receives it.  `message` is
`e.message` when that is a string, as for an `Error`; it is `none` for every other value
(a string, `undefined`, `null`, an object without a string `message`), on which
`e.message.includes(...)` raises a `TypeError`. -/
structure JSError where
  message : Option JSString
deriving DecidableEq

/-- The payload of `this.call(plugin, method, payload)`. -/
inductive Payload where
  | name (n : JSString)
  | profile (p : Profile)
deriving DecidableEq

/-- A call delegated to a collaborator. -/
inductive Call where
  | activatePlugin (name : JSString)
  | deactivatePlugin (name : JSString)
  | isActive (name : JSString)
  | getProfile (name : JSString)
  | removeProfile (name : JSString)
  | call (plugin : Option JSString) (method : JSString) (payload : Payload)
  | engineRemove (name : JSString)
deriving DecidableEq

/-- The component: its collaborator `appManager`, the stored `filter`, the two view
lists, the analytics queue `_paq`, and `log`, the calls delegated so far. -/
structure PluginManagerComponent (ε : Type) where
  appManager : AppManager ε
  filter : JSString
  activePlugins : List Profile
  inactivePlugins : List Profile
  paq : List (List JSString)
  log : List Call

/-- The argument of `getAndFilterPlugins`: a string, or anything else (`undefined`
when the argument is left out). -/
inductive FilterArg where
  | str (s : JSString)
  | other

/-! ## View projection -/

/-- The expression `profile.displayName ? profile.displayName : profile.name`; the
empty string is falsy. -/
def label (p : Profile) : JSString :=
  match p.displayName with
  | some d => if d = [] then p.name else d
  | none => p.name

def isFiltered (cm : CaseMapping) (filter : JSString) (p : Profile) : Bool :=
  includes (cm.toLowerCase (label p)) filter

def isNotRequired {ε : Type} (am : AppManager ε) (p : Profile) : Bool :=
  !am.isRequired p.name

def isNotDependent {ε : Type} (am : AppManager ε) (p : Profile) : Bool :=
  !am.isDependent p.name

def isNotHome (p : Profile) : Bool :=
  p.name != utf16 "home"

def sortByName (cm : CaseMapping) (profileA profileB : Profile) : Int :=
  let nameA := cm.toUpperCase (label profileA)
  let nameB := cm.toUpperCase (label profileB)
  if lessThan nameA nameB then -1 else if lessThan nameB nameA then 1 else 0

/-- The candidate list `tempArray` of `getAndFilterPlugins`. -/
def tempArray {ε : Type} (cm : CaseMapping) (am : AppManager ε) (filter : JSString) :
    List Profile :=
  sort (sortByName cm)
    ((((am.getAll.filter (isFiltered cm filter)).filter (isNotRequired am)).filter
      (isNotDependent am)).filter isNotHome)

/-- The four filters of `getAndFilterPlugins`, in their order, on a profile of
`getAll()`: the profile reaches `tempArray`. -/
def survives {ε : Type} (cm : CaseMapping) (am : AppManager ε) (filter : JSString)
    (p : Profile) : Bool :=
  decide (p ∈ am.getAll) && isFiltered cm filter p && isNotRequired am p &&
    isNotDependent am p && isNotHome p

/-- The loop `tempArray.forEach(...)`: the pair `(activatedPlugins, deactivatedPlugins)`. -/
def pushEach (actives : List JSString) (temp : List Profile) : List Profile × List Profile :=
  temp.foldl
    (fun acc profile =>
      if decide (profile.name ∈ actives) then (acc.1 ++ [profile], acc.2)
      else (acc.1, acc.2 ++ [profile]))
    ([], [])

/-- The method `getAndFilterPlugins (filter)`. -/
def getAndFilterPlugins {ε : Type} (cm : CaseMapping) (filter : FilterArg)
    (c : PluginManagerComponent ε) : PluginManagerComponent ε :=
  let stored :=
    match filter with
    | .str s => cm.toLowerCase s
    | .other => c.filter
  let lists := pushEach c.appManager.actives (tempArray cm c.appManager stored)
  { c with filter := stored, activePlugins := lists.1, inactivePlugins := lists.2 }

/-- The constructor: empty filter, empty view lists. -/
def construct {ε : Type} (appManager : AppManager ε) (paq : List (List JSString)) :
    PluginManagerComponent ε :=
  { appManager := appManager, filter := utf16 "", activePlugins := [], inactivePlugins := [],
    paq := paq, log := [] }

/-! ## Collaborators and events -/

/-- The signals the component listens to: `onRegistration` of the engine, `activate`
and `deactivate` of the app-manager. -/
inductive Signal where
  | onRegistration
  | activate
  | deactivate
deriving DecidableEq

/-- What an asynchronous operation of a collaborator does: the events it emits, each
with the app-manager state at that moment, the app-manager state it leaves, and the
value it resolves to or the error it rejects with. -/
structure Reply (ε : Type) (α : Type) where
  emitted : List (Signal × AppManager ε)
  final : AppManager ε
  result : Except JSError α

/-- The operations of the collaborators the component delegates to, and `typeError`,
the message of the `TypeError` the JavaScript engine raises when `e.message.includes(...)`
is evaluated on a value without a string `message`. -/
structure Host (ε : Type) where
  activatePlugin : JSString → AppManager ε → Reply ε Unit
  deactivatePlugin : JSString → AppManager ε → Reply ε Unit
  isActive : JSString → AppManager ε → Reply ε Bool
  getProfile : JSString → AppManager ε → Reply ε (Option Profile)
  removeProfile : JSString → AppManager ε → Reply ε Unit
  call : Option JSString → JSString → Payload → AppManager ε → Reply ε Unit
  engineRemove : JSString → AppManager ε → Reply ε Unit
  typeError : JSString

/-- The listeners installed by `listenOnEvent`: `onRegistration` only re-renders,
`activate` and `deactivate` run `getAndFilterPlugins()`. -/
def listenOnEvent {ε : Type} (cm : CaseMapping) (c : PluginManagerComponent ε)
    (ev : Signal × AppManager ε) : PluginManagerComponent ε :=
  match ev.1 with
  | .onRegistration => { c with appManager := ev.2 }
  | .activate => getAndFilterPlugins cm .other { c with appManager := ev.2 }
  | .deactivate => getAndFilterPlugins cm .other { c with appManager := ev.2 }

/-- The expression `await collaborator.operation(...)`: the call is logged, the
listeners run on each emitted event, the collaborator is left in its final state. -/
def await {ε α : Type} (cm : CaseMapping) (call : Call) (r : Reply ε α)
    (c : PluginManagerComponent ε) : Except JSError α × PluginManagerComponent ε :=
  let c1 := r.emitted.foldl (listenOnEvent cm) { c with log := c.log ++ [call] }
  (r.result, { c1 with appManager := r.final })

/-! ## Command delegation -/

/-- The statement `if (!await this.appManager.isActive(name)) this.appManager.actives.push(name)`,
once the query has returned `active`. -/
def markActive {ε : Type} (active : Bool) (name : JSString) (am : AppManager ε) : AppManager ε :=
  if !active then { am with actives := am.actives ++ [name] } else am

/-- The recovery sequence in the `catch` block of `activateP`, entered when the error
message includes `plugin is already rendered`. -/
def forceReactivate {ε : Type} (cm : CaseMapping) (h : Host ε) (name : JSString)
    (c : PluginManagerComponent ε) : Except JSError Unit × PluginManagerComponent ε :=
  match await cm (.isActive name) (h.isActive name c.appManager) c with
  | (.error e, c1) => (.error e, c1)
  | (.ok active, c1) =>
    let c2 := { c1 with appManager := markActive active name c1.appManager }
    match await cm (.deactivatePlugin name) (h.deactivatePlugin name c2.appManager) c2 with
    | (.error e, c3) => (.error e, c3)
    | (.ok _, c3) => await cm (.activatePlugin name) (h.activatePlugin name c3.appManager) c3

/-- The `try`/`catch` statement of `activateP`.  The guard `e.message.includes(...)` is
evaluated in the `catch` block: on a value without a string `message` it raises a
`TypeError`, which leaves `activateP`. -/
def tryActivate {ε : Type} (cm : CaseMapping) (h : Host ε) (name : JSString)
    (c : PluginManagerComponent ε) : Except JSError Unit × PluginManagerComponent ε :=
  match await cm (.activatePlugin name) (h.activatePlugin name c.appManager) c with
  | (.ok _, c1) => (.ok (), c1)
  | (.error e, c1) =>
    match e.message with
    | none => (.error { message := some h.typeError }, c1)
    | some message =>
      if includes message (utf16 "plugin is already rendered") then forceReactivate cm h name c1
      else (.ok (), c1)

/-- The method `activateP (name)`. -/
def activateP {ε : Type} (cm : CaseMapping) (h : Host ε) (name : JSString)
    (c : PluginManagerComponent ε) : Except JSError Unit × PluginManagerComponent ε :=
  match tryActivate cm h name c with
  | (.error e, c1) => (.error e, c1)
  | (.ok _, c1) =>
    let c2 := getAndFilterPlugins cm .other c1
    (.ok (),
      { c2 with
        paq := c2.paq ++ [[utf16 "trackEvent", utf16 "manager", utf16 "activate", name]] })

/-- The method `deactivateP (name)`. -/
def deactivateP {ε : Type} (cm : CaseMapping) (h : Host ε) (name : JSString)
    (c : PluginManagerComponent ε) : Except JSError Unit × PluginManagerComponent ε :=
  match await cm (.call (some (utf16 "manager")) (utf16 "deactivatePlugin") (.name name))
      (h.call (some (utf16 "manager")) (utf16 "deactivatePlugin") (.name name) c.appManager) c with
  | (.error e, c1) => (.error e, c1)
  | (.ok _, c1) =>
    (.ok (),
      { c1 with
        paq := c1.paq ++ [[utf16 "trackEvent", utf16 "manager", utf16 "deactivate", name]] })

/-- The first `try` block of `removeP`: the view is removed when a profile was found,
an error is dropped. -/
def tryRemoveView {ε : Type} (cm : CaseMapping) (h : Host ε) (profile : Option Profile)
    (c : PluginManagerComponent ε) : PluginManagerComponent ε :=
  match profile with
  | some p =>
    (await cm (.call p.location (utf16 "removeView") (.profile p))
      (h.call p.location (utf16 "removeView") (.profile p) c.appManager) c).2
  | none => c

/-- The method `removeP (name)`. -/
def removeP {ε : Type} (cm : CaseMapping) (h : Host ε) (name : JSString)
    (c : PluginManagerComponent ε) : Except JSError Unit × PluginManagerComponent ε :=
  match await cm (.getProfile name) (h.getProfile name c.appManager) c with
  | (.error e, c1) => (.error e, c1)
  | (.ok profile, c1) =>
    let c2 := tryRemoveView cm h profile c1
    let c3 := (await cm (.engineRemove name) (h.engineRemove name c2.appManager) c2).2
    await cm (.removeProfile name) (h.removeProfile name c3.appManager) c3

/-! ## Histories -/

/-- What can happen to the component: a call of one of its methods, or an event
emitted by a collaborator outside any of them. -/
inductive Command (ε : Type) where
  | getAndFilterPlugins (filter : FilterArg)
  | activateP (name : JSString)
  | deactivateP (name : JSString)
  | removeP (name : JSString)
  | signal (ev : Signal × AppManager ε)

/-- The component after one command. -/
def exec {ε : Type} (cm : CaseMapping) (h : Host ε) (c : PluginManagerComponent ε) :
    Command ε → PluginManagerComponent ε
  | .getAndFilterPlugins filter => getAndFilterPlugins cm filter c
  | .activateP name => (activateP cm h name c).2
  | .deactivateP name => (deactivateP cm h name c).2
  | .removeP name => (removeP cm h name c).2
  | .signal ev => listenOnEvent cm c ev

/-- The component after a history of commands. -/
def run {ε : Type} (cm : CaseMapping) (h : Host ε) (c : PluginManagerComponent ε)
    (history : List (Command ε)) : PluginManagerComponent ε :=
  history.foldl (exec cm h) c

/-! ## Sample data for the scenarios -/

def zeta : Profile :=
  { name := utf16 "zeta", displayName := some (utf16 "Zeta"), location := some (utf16 "sidePanel") }

def alpha : Profile :=
  { name := utf16 "alpha", displayName := some (utf16 "alpha"),
    location := some (utf16 "sidePanel") }

def homeTab : Profile :=
  { name := utf16 "home", displayName := some (utf16 "Home"), location := some (utf16 "mainPanel") }

def fileManager : Profile :=
  { name := utf16 "fileManager", displayName := some (utf16 "File manager"), location := none }

def udapp : Profile :=
  { name := utf16 "udapp", displayName := none, location := some (utf16 "sidePanel") }

def pluginManagerProfile : Profile :=
  { name := utf16 "pluginManager", displayName := some (utf16 "Plugin Manager"),
    location := some (utf16 "sidePanel") }

def sigmaProfile : Profile :=
  { name := utf16 "sigma", displayName := some (utf16 "AΣ"), location := none }

/-- An app-manager with the one profile `sigmaProfile`. -/
def sigmaManager : AppManager Unit :=
  { actives := [], getAll := [sigmaProfile], isRequired := fun _ => false,
    isDependent := fun _ => false, hidden := () }

/-- An app-manager with six profiles: `fileManager` is required, `udapp` is a
dependency, `pluginManager` is active. -/
def sampleManager : AppManager Unit :=
  { actives := [utf16 "pluginManager"],
    getAll := [zeta, alpha, homeTab, fileManager, udapp, pluginManagerProfile],
    isRequired := fun n => n == utf16 "fileManager",
    isDependent := fun n => n == utf16 "udapp",
    hidden := () }

/-- The sample app-manager next to a flag of the engine: the view of a plugin that is
not active is still rendered. -/
def staleManager (staleView : Bool) : AppManager Bool :=
  { actives := [utf16 "pluginManager"],
    getAll := [zeta, alpha, homeTab, fileManager, udapp, pluginManagerProfile],
    isRequired := fun n => n == utf16 "fileManager",
    isDependent := fun n => n == utf16 "udapp",
    hidden := staleView }

/-- A reply that changes nothing and resolves to `a`. -/
def resolve {ε α : Type} (am : AppManager ε) (a : α) : Reply ε α :=
  { emitted := [], final := am, result := .ok a }

/-- A reply that changes nothing and rejects with an error of message `msg`. -/
def reject {ε α : Type} (am : AppManager ε) (msg : JSString) : Reply ε α :=
  { emitted := [], final := am, result := .error { message := some msg } }

/-- A reply that changes nothing and rejects with a value that has no `message`, as
`Promise.reject('timeout')` does. -/
def rejectBare {ε α : Type} (am : AppManager ε) : Reply ε α :=
  { emitted := [], final := am, result := .error { message := none } }

/-- Deactivation in the sample host: an active plugin leaves `actives`, its view is
dropped and `deactivate` is emitted; nothing happens for a plugin that is not active. -/
def sampleDeactivate (name : JSString) (am : AppManager Bool) : Reply Bool Unit :=
  if name ∈ am.actives then
    { emitted :=
        [(.deactivate, { am with actives := am.actives.filter (· != name), hidden := false })],
      final := { am with actives := am.actives.filter (· != name), hidden := false },
      result := .ok () }
  else resolve am ()

/-- A sample host.  Activation of a plugin that is not active fails with
`plugin is already rendered` while a stale view is rendered, else the plugin joins
`actives` and `activate` is emitted. -/
def sampleHost : Host Bool where
  activatePlugin := fun name am =>
    if name ∈ am.actives then resolve am ()
    else if am.hidden then reject am (utf16 "Error: plugin is already rendered")
    else
      { emitted := [(.activate, { am with actives := am.actives ++ [name] })],
        final := { am with actives := am.actives ++ [name] },
        result := .ok () }
  deactivatePlugin := sampleDeactivate
  isActive := fun name am => resolve am (decide (name ∈ am.actives))
  getProfile := fun name am => resolve am (am.getAll.find? fun p => p.name == name)
  removeProfile := fun name am =>
    { emitted := [], final := { am with getAll := am.getAll.filter (·.name != name) },
      result := .ok () }
  call := fun _ method payload am =>
    match payload with
    | .name n => if method = utf16 "deactivatePlugin" then sampleDeactivate n am else resolve am ()
    | .profile _ => resolve am ()
  engineRemove := fun _ am => resolve am ()
  typeError := utf16 "e.message is undefined"

/-- The sample host with a deactivation that always fails. -/
def stuckHost : Host Bool :=
  { sampleHost with deactivatePlugin := fun _ am => reject am (utf16 "cannot deactivate") }

/-- The sample host with a view removal and an engine removal that always fail. -/
def failingTeardownHost : Host Bool :=
  { sampleHost with
    call := fun _ _ _ am => reject am (utf16 "no such view"),
    engineRemove := fun _ am => reject am (utf16 "handshake did not succeed") }

/-- The sample host with an activation that always fails for a reason other than a
rendered view. -/
def refusingHost : Host Bool :=
  { sampleHost with activatePlugin := fun _ am => reject am (utf16 "no right to activate") }

/-- The sample host with an activation that always rejects with a value that has no
`message`. -/
def bareRejectHost : Host Bool :=
  { sampleHost with activatePlugin := fun _ am => rejectBare am }

/-! ## Facts about the string order and the sort -/

theorem lessThan_irrefl (a : JSString) : lessThan a a = false := by
  induction a with
  | nil => rfl
  | cons x xs ih => simp [lessThan, ih]

theorem lessThan_trans : ∀ a b c : JSString,
    lessThan a b = true → lessThan b c = true → lessThan a c = true
  | [], [], _, h, _ => by simp [lessThan] at h
  | [], _ :: _, [], _, h => by simp [lessThan] at h
  | [], _ :: _, _ :: _, _, _ => by simp [lessThan]
  | _ :: _, [], _, h, _ => by simp [lessThan] at h
  | _ :: _, _ :: _, [], _, h => by simp [lessThan] at h
  | x :: xs, y :: ys, z :: zs, h1, h2 => by
    simp only [lessThan] at h1 h2 ⊢
    have ih := lessThan_trans xs ys zs
    split_ifs at h1 h2 ⊢ <;> first | rfl | omega | exact ih h1 h2

theorem lessThan_asymm : ∀ a b : JSString, lessThan a b = true → lessThan b a = false
  | [], [], h => by simp [lessThan] at h
  | [], _ :: _, _ => by simp [lessThan]
  | _ :: _, [], h => by simp [lessThan] at h
  | x :: xs, y :: ys, h => by
    simp only [lessThan] at h ⊢
    have ih := lessThan_asymm xs ys
    split_ifs at h ⊢ <;> first | rfl | omega | exact ih h

theorem lessThan_connex : ∀ a b : JSString,
    lessThan a b = false → lessThan b a = false → a = b
  | [], [], _, _ => rfl
  | [], _ :: _, h, _ => by simp [lessThan] at h
  | _ :: _, [], _, h => by simp [lessThan] at h
  | x :: xs, y :: ys, h1, h2 => by
    simp only [lessThan] at h1 h2
    have ih := lessThan_connex xs ys
    split_ifs at h1 h2
    have hxy : x = y := by omega
    rw [hxy, ih h1 h2]

/-- The relation `not (b < a)` is transitive. -/
theorem notLess_trans (a b c : JSString)
    (h1 : lessThan b a = false) (h2 : lessThan c b = false) : lessThan c a = false := by
  cases hca : lessThan c a with
  | false => rfl
  | true =>
    cases hbc : lessThan b c with
    | true => rw [lessThan_trans b c a hbc hca] at h1; exact absurd h1 (by decide)
    | false =>
      have hcb : c = b := lessThan_connex c b h2 hbc
      rw [hcb] at hca; rw [hca] at h1; exact absurd h1 (by decide)

/-- The comparator puts `a` before `b` exactly when the key of `b` is not below that
of `a`. -/
theorem sortByName_le_zero (cm : CaseMapping) (a b : Profile) :
    sortByName cm a b ≤ 0 ↔
      lessThan (cm.toUpperCase (label b)) (cm.toUpperCase (label a)) = false := by
  unfold sortByName
  by_cases hab : lessThan (cm.toUpperCase (label a)) (cm.toUpperCase (label b)) = true
  · simp [hab, lessThan_asymm _ _ hab]
  · by_cases hba : lessThan (cm.toUpperCase (label b)) (cm.toUpperCase (label a)) = true
    · simp [hab, hba]
    · simp [hab, hba]

theorem mem_sort {α : Type} (compare : α → α → Int) (l : List α) (x : α) :
    x ∈ sort compare l ↔ x ∈ l :=
  (List.perm_insertionSort _ l).mem_iff

/-- The sorted candidates are pairwise in key order. -/
theorem sort_sortByName_pairwise (cm : CaseMapping) (l : List Profile) :
    (sort (sortByName cm) l).Pairwise fun a b =>
      lessThan (cm.toUpperCase (label b)) (cm.toUpperCase (label a)) = false := by
  haveI : IsTotal Profile (fun a b => sortByName cm a b ≤ 0) :=
    ⟨fun a b => by
      rw [sortByName_le_zero, sortByName_le_zero]
      cases h : lessThan (cm.toUpperCase (label b)) (cm.toUpperCase (label a)) with
      | false => exact Or.inl rfl
      | true => exact Or.inr (lessThan_asymm _ _ h)⟩
  haveI : IsTrans Profile (fun a b => sortByName cm a b ≤ 0) :=
    ⟨fun a b c hab hbc => by
      rw [sortByName_le_zero] at hab hbc ⊢
      exact notLess_trans _ _ _ hab hbc⟩
  have h := List.sorted_insertionSort (fun a b => sortByName cm a b ≤ 0) l
  exact List.Pairwise.imp (fun {a b} hab => (sortByName_le_zero cm a b).1 hab) h

/-! ## Facts about the projection -/

theorem foldl_pushEach (actives : List JSString) (temp : List Profile)
    (acc : List Profile × List Profile) :
    temp.foldl
      (fun acc profile =>
        if decide (profile.name ∈ actives) then (acc.1 ++ [profile], acc.2)
        else (acc.1, acc.2 ++ [profile]))
      acc
    = (acc.1 ++ temp.filter (fun p => decide (p.name ∈ actives)),
       acc.2 ++ temp.filter (fun p => !decide (p.name ∈ actives))) := by
  induction temp generalizing acc with
  | nil => simp
  | cons p ps ih =>
    rw [List.foldl_cons, ih]
    by_cases hp : p.name ∈ actives <;> simp [hp, List.filter_cons]

/-- The loop splits the candidates by membership of the name in `actives`, in order. -/
theorem pushEach_eq (actives : List JSString) (temp : List Profile) :
    pushEach actives temp
      = (temp.filter (fun p => decide (p.name ∈ actives)),
         temp.filter (fun p => !decide (p.name ∈ actives))) := by
  unfold pushEach
  rw [foldl_pushEach]
  simp

/-- The candidates are the profiles of `getAll()` that pass the four filters. -/
theorem mem_tempArray {ε : Type} (cm : CaseMapping) (am : AppManager ε) (f : JSString)
    (p : Profile) :
    p ∈ tempArray cm am f ↔
      p ∈ am.getAll ∧ includes (cm.toLowerCase (label p)) f = true ∧
        am.isRequired p.name = false ∧ am.isDependent p.name = false ∧
        p.name ≠ utf16 "home" := by
  unfold tempArray
  rw [mem_sort]
  simp only [List.mem_filter, isFiltered, isNotRequired, isNotDependent, isNotHome,
    Bool.not_eq_true', bne_iff_ne, ne_eq]
  tauto

theorem mem_activePlugins {ε : Type} (cm : CaseMapping) (arg : FilterArg)
    (c : PluginManagerComponent ε) (p : Profile) :
    p ∈ (getAndFilterPlugins cm arg c).activePlugins ↔
      p ∈ tempArray cm c.appManager (getAndFilterPlugins cm arg c).filter ∧
        p.name ∈ c.appManager.actives := by
  simp [getAndFilterPlugins, pushEach_eq, List.mem_filter]

theorem mem_inactivePlugins {ε : Type} (cm : CaseMapping) (arg : FilterArg)
    (c : PluginManagerComponent ε) (p : Profile) :
    p ∈ (getAndFilterPlugins cm arg c).inactivePlugins ↔
      p ∈ tempArray cm c.appManager (getAndFilterPlugins cm arg c).filter ∧
        p.name ∉ c.appManager.actives := by
  simp [getAndFilterPlugins, pushEach_eq, List.mem_filter]

theorem getAndFilterPlugins_appManager {ε : Type} (cm : CaseMapping) (arg : FilterArg)
    (c : PluginManagerComponent ε) :
    (getAndFilterPlugins cm arg c).appManager = c.appManager := rfl

theorem includes_nil (s : JSString) : includes s [] = true := by
  simp [includes]

/-- Both view lists are sublists of the sorted candidates. -/
theorem lists_sublist {ε : Type} (cm : CaseMapping) (arg : FilterArg)
    (c : PluginManagerComponent ε) :
    (getAndFilterPlugins cm arg c).activePlugins.Sublist
        (tempArray cm c.appManager (getAndFilterPlugins cm arg c).filter) ∧
      (getAndFilterPlugins cm arg c).inactivePlugins.Sublist
        (tempArray cm c.appManager (getAndFilterPlugins cm arg c).filter) := by
  simp only [getAndFilterPlugins, pushEach_eq]
  exact ⟨List.filter_sublist _, List.filter_sublist _⟩

theorem pairwise_getElem? {α : Type} {R : α → α → Prop} {l : List α} (h : l.Pairwise R)
    (i j : Nat) (a b : α) (hij : i < j) (hi : l[i]? = some a) (hj : l[j]? = some b) :
    R a b := by
  rw [List.pairwise_iff_getElem] at h
  obtain ⟨hi', rfl⟩ := List.getElem?_eq_some.1 hi
  obtain ⟨hj', rfl⟩ := List.getElem?_eq_some.1 hj
  exact h i j hi' hj' hij

/-! ## The view projection: claims -/

/-- C1: after `getAndFilterPlugins`, a profile that survives the filter chain (it is in
`getAll()`, its lower-cased label includes the stored filter, it is not required, not
dependent and not named `home`) is in exactly one of `activePlugins` and
`inactivePlugins`; a profile in either list survives the filter chain; and a surviving
profile is in `activePlugins` exactly when its name is in `actives`, in `inactivePlugins`
exactly when it is not. -/
theorem getAndFilterPlugins_partition {ε : Type} (cm : CaseMapping) (arg : FilterArg)
    (c : PluginManagerComponent ε) (p : Profile) :
    ((p ∈ c.appManager.getAll ∧
        includes (cm.toLowerCase (label p)) (getAndFilterPlugins cm arg c).filter = true ∧
        c.appManager.isRequired p.name = false ∧ c.appManager.isDependent p.name = false ∧
        p.name ≠ utf16 "home") →
      ((p ∈ (getAndFilterPlugins cm arg c).activePlugins ∧
          p ∉ (getAndFilterPlugins cm arg c).inactivePlugins) ∨
        (p ∉ (getAndFilterPlugins cm arg c).activePlugins ∧
          p ∈ (getAndFilterPlugins cm arg c).inactivePlugins)) ∧
      (p ∈ (getAndFilterPlugins cm arg c).activePlugins ↔ p.name ∈ c.appManager.actives) ∧
      (p ∈ (getAndFilterPlugins cm arg c).inactivePlugins ↔
        p.name ∉ c.appManager.actives)) ∧
    ((p ∈ (getAndFilterPlugins cm arg c).activePlugins ∨
        p ∈ (getAndFilterPlugins cm arg c).inactivePlugins) →
      (p ∈ c.appManager.getAll ∧
        includes (cm.toLowerCase (label p)) (getAndFilterPlugins cm arg c).filter = true ∧
        c.appManager.isRequired p.name = false ∧ c.appManager.isDependent p.name = false ∧
        p.name ≠ utf16 "home")) := by
  rw [mem_activePlugins, mem_inactivePlugins, mem_tempArray]
  by_cases hact : p.name ∈ c.appManager.actives <;> simp [hact]

/-- C1, at the sample app-manager: `zeta` survives and is in `inactivePlugins` only,
`homeTab` is in neither list. -/
theorem getAndFilterPlugins_partition_witness :
    ((zeta ∈ (getAndFilterPlugins asciiCase .other (construct sampleManager [])).activePlugins ∧
          zeta ∉ (getAndFilterPlugins asciiCase .other
            (construct sampleManager [])).inactivePlugins) ∨
        (zeta ∉ (getAndFilterPlugins asciiCase .other
            (construct sampleManager [])).activePlugins ∧
          zeta ∈ (getAndFilterPlugins asciiCase .other
            (construct sampleManager [])).inactivePlugins)) ∧
      zeta.name ∉ sampleManager.actives ∧
      homeTab ∉
        (getAndFilterPlugins asciiCase .other (construct sampleManager [])).activePlugins ∧
      homeTab ∉
        (getAndFilterPlugins asciiCase .other (construct sampleManager [])).inactivePlugins :=
  ⟨((getAndFilterPlugins_partition asciiCase .other (construct sampleManager []) zeta).1
      (by decide)).1,
    by decide, by decide, by decide⟩

/-- C2: after `getAndFilterPlugins`, whatever the profile list, the active-set and the
filter argument, a profile in `activePlugins` or `inactivePlugins` is not required, not
dependent and not named `home`. -/
theorem getAndFilterPlugins_excludes {ε : Type} (cm : CaseMapping) (arg : FilterArg)
    (c : PluginManagerComponent ε) (p : Profile)
    (hp : p ∈ (getAndFilterPlugins cm arg c).activePlugins ∨
      p ∈ (getAndFilterPlugins cm arg c).inactivePlugins) :
    c.appManager.isRequired p.name = false ∧ c.appManager.isDependent p.name = false ∧
      p.name ≠ utf16 "home" := by
  rw [mem_activePlugins, mem_inactivePlugins, mem_tempArray] at hp
  tauto

/-- C2, at the sample app-manager: `alpha` is listed and is not excluded. -/
theorem getAndFilterPlugins_excludes_witness :
    (alpha ∈ (getAndFilterPlugins asciiCase .other (construct sampleManager [])).activePlugins ∨
      alpha ∈
        (getAndFilterPlugins asciiCase .other (construct sampleManager [])).inactivePlugins) ∧
    (sampleManager.isRequired alpha.name = false ∧
      sampleManager.isDependent alpha.name = false ∧ alpha.name ≠ utf16 "home") :=
  ⟨Or.inr (by decide),
    getAndFilterPlugins_excludes asciiCase .other (construct sampleManager []) alpha
      (Or.inr (by decide))⟩

/-! ### Case-insensitive search on ASCII text -/

theorem sameLetter_iff (a b : Nat) :
    sameLetter a b = true ↔
      (if 65 ≤ a ∧ a ≤ 90 then a + 32 else a) = (if 65 ≤ b ∧ b ≤ 90 then b + 32 else b) := by
  simp only [sameLetter, Bool.or_eq_true, Bool.and_eq_true, beq_iff_eq, decide_eq_true_eq]
  split_ifs <;> omega

theorem equalIgnoringCase_iff : ∀ s f : JSString,
    equalIgnoringCase s f = true ↔ asciiCase.toLowerCase s = asciiCase.toLowerCase f
  | [], [] => by simp [equalIgnoringCase, asciiCase]
  | [], _ :: _ => by simp [equalIgnoringCase, asciiCase]
  | _ :: _, [] => by simp [equalIgnoringCase, asciiCase]
  | a :: as, b :: bs => by
    have ih := equalIgnoringCase_iff as bs
    simp only [asciiCase] at ih
    simp only [equalIgnoringCase, Bool.and_eq_true, sameLetter_iff, ih, asciiCase, List.map_cons,
      List.cons.injEq]

/-- For ASCII case conversion, the lower-cased filter occurs in the lower-cased label
exactly when the filter, compared ignoring letter case, is a substring of the label. -/
theorem includes_asciiCase (s f : JSString) :
    includes (asciiCase.toLowerCase s) (asciiCase.toLowerCase f) = occursIgnoringCase s f := by
  rw [Bool.eq_iff_iff]
  simp only [includes, decide_eq_true_eq, occursIgnoringCase, List.any_eq_true, List.mem_tails,
    equalIgnoringCase_iff]
  simp only [asciiCase]
  rw [List.infix_iff_prefix_suffix]
  constructor
  · rintro ⟨t, hpre, ⟨pre, hsuf⟩⟩
    obtain ⟨l₁, l₂, hs, _, h2⟩ := List.map_eq_append_iff.1 hsuf.symm
    refine ⟨l₂, ⟨l₁, hs.symm⟩, ?_⟩
    rw [← h2, List.prefix_iff_eq_take, List.length_map, ← List.map_take] at hpre
    exact hpre.symm
  · rintro ⟨t, hsuf, heq⟩
    refine ⟨t.map _, ?_, hsuf.map _⟩
    rw [List.prefix_iff_eq_take, List.length_map, ← List.map_take]
    exact heq.symm

/-- On ASCII text the two case conversions lower-case alike. -/
theorem greekCase_toLowerCase_ascii (s : JSString) (hs : ∀ u ∈ s, u < 128) :
    greekCase.toLowerCase s = asciiCase.toLowerCase s := by
  have key : ∀ (b : Bool) (s : JSString), (∀ u ∈ s, u < 128) →
      lowerInContext b s = asciiCase.toLowerCase s := by
    intro b s
    induction s generalizing b with
    | nil => intro _; rfl
    | cons u rest ih =>
      intro h
      have hu : u < 128 := h u (List.mem_cons_self _ _)
      have hrest := ih (isCased u) fun v hv => h v (List.mem_cons_of_mem _ hv)
      have h1 : ¬ u = 931 := by omega
      have h2 : ¬ (913 ≤ u ∧ u ≤ 929) := by omega
      have h3 : ¬ (932 ≤ u ∧ u ≤ 937) := by omega
      simp only [lowerInContext, hrest, h1, h2, h3, if_false]
      simp only [asciiCase, List.map_cons]
  exact key false s hs

/-- C3, as stated, fails: with the case conversion of the language, the profile with
display name `AΣ` is in `getAll()`, is not required, not dependent and not named `home`,
and the filter `Σ` occurs in its display name as it stands; lower-casing turns the
display name into `aς` and the filter into `σ`, and the profile is in neither list. -/
theorem getAndFilterPlugins_text_filter_counterexample :
    sigmaProfile ∈ sigmaManager.getAll ∧ sigmaManager.isRequired sigmaProfile.name = false ∧
      sigmaManager.isDependent sigmaProfile.name = false ∧
      sigmaProfile.name ≠ utf16 "home" ∧
      label sigmaProfile = utf16 "AΣ" ∧ utf16 "Σ" <:+: label sigmaProfile ∧
      greekCase.toLowerCase (utf16 "AΣ") = utf16 "aς" ∧
      greekCase.toLowerCase (utf16 "Σ") = utf16 "σ" ∧
      sigmaProfile ∉ (getAndFilterPlugins greekCase (.str (utf16 "Σ"))
        (construct sigmaManager [])).activePlugins ∧
      sigmaProfile ∉ (getAndFilterPlugins greekCase (.str (utf16 "Σ"))
        (construct sigmaManager [])).inactivePlugins :=
  ⟨by decide, by decide, by decide, by decide, by decide, by decide, by decide, by decide,
    by decide, by decide⟩

/-- C3, amended: for a filter string `f` and a profile of `getAll()` that is not
required, not dependent and not named `home`, the profile is in one of the two lists
exactly when the lower-cased `f` occurs in the lower-cased label (the display name, or
the name when the display name is absent or empty), and filters with the same
lower-casing give the same component state.  For ASCII text, whose lower-casing is
`asciiCase`, the profile is listed exactly when `f`, compared ignoring letter case, is a
substring of the label; filters that are equal ignoring letter case give the same
component state; and the filter `plug` keeps a profile whose display name is
`Plugin Manager`. -/
theorem getAndFilterPlugins_text_filter {ε : Type} (cm : CaseMapping) (f : JSString)
    (c : PluginManagerComponent ε) :
    (∀ p : Profile, p ∈ c.appManager.getAll → c.appManager.isRequired p.name = false →
      c.appManager.isDependent p.name = false → p.name ≠ utf16 "home" →
      ((p ∈ (getAndFilterPlugins cm (.str f) c).activePlugins ∨
          p ∈ (getAndFilterPlugins cm (.str f) c).inactivePlugins) ↔
        includes (cm.toLowerCase (label p)) (cm.toLowerCase f) = true)) ∧
    (∀ p : Profile, (∀ d, p.displayName = some d → d ≠ [] → label p = d) ∧
      (p.displayName = none ∨ p.displayName = some [] → label p = p.name)) ∧
    (∀ g : JSString, cm.toLowerCase g = cm.toLowerCase f →
      getAndFilterPlugins cm (.str g) c = getAndFilterPlugins cm (.str f) c) ∧
    (∀ p : Profile, p ∈ c.appManager.getAll → c.appManager.isRequired p.name = false →
      c.appManager.isDependent p.name = false → p.name ≠ utf16 "home" →
      (∀ u ∈ f, u < 128) → (∀ u ∈ label p, u < 128) →
      ((p ∈ (getAndFilterPlugins asciiCase (.str f) c).activePlugins ∨
          p ∈ (getAndFilterPlugins asciiCase (.str f) c).inactivePlugins) ↔
        occursIgnoringCase (label p) f = true)) ∧
    (∀ g : JSString, (∀ u ∈ f, u < 128) → (∀ u ∈ g, u < 128) →
      equalIgnoringCase g f = true →
      getAndFilterPlugins asciiCase (.str g) c = getAndFilterPlugins asciiCase (.str f) c) ∧
    (∀ p : Profile, p ∈ c.appManager.getAll → c.appManager.isRequired p.name = false →
      c.appManager.isDependent p.name = false → p.name ≠ utf16 "home" →
      p.displayName = some (utf16 "Plugin Manager") →
      (p ∈ (getAndFilterPlugins asciiCase (.str (utf16 "plug")) c).activePlugins ∨
        p ∈ (getAndFilterPlugins asciiCase (.str (utf16 "plug")) c).inactivePlugins)) := by
  have general : ∀ (cm : CaseMapping) (f : JSString) (p : Profile), p ∈ c.appManager.getAll →
      c.appManager.isRequired p.name = false → c.appManager.isDependent p.name = false →
      p.name ≠ utf16 "home" →
      ((p ∈ (getAndFilterPlugins cm (.str f) c).activePlugins ∨
          p ∈ (getAndFilterPlugins cm (.str f) c).inactivePlugins) ↔
        includes (cm.toLowerCase (label p)) (cm.toLowerCase f) = true) := by
    intro cm f p hp hr hd hh
    rw [mem_activePlugins, mem_inactivePlugins, mem_tempArray]
    have hf : (getAndFilterPlugins cm (.str f) c).filter = cm.toLowerCase f := rfl
    rw [hf]
    by_cases hact : p.name ∈ c.appManager.actives <;> simp [hact, hp, hr, hd, hh]
  refine ⟨general cm f, ?_, ?_, ?_, ?_, ?_⟩
  · intro p
    refine ⟨fun d hd hne => ?_, fun h => ?_⟩
    · simp [label, hd, hne]
    · rcases h with h | h <;> simp [label, h]
  · intro g hg
    simp only [getAndFilterPlugins, hg]
  · intro p hp hr hd hh _ _
    rw [general asciiCase f p hp hr hd hh, includes_asciiCase]
  · intro g _ _ hg
    have hl := (equalIgnoringCase_iff g f).1 hg
    simp only [getAndFilterPlugins, hl]
  · intro p hp hr hd hh hdn
    have hne : utf16 "Plugin Manager" ≠ [] := by decide
    have hl : label p = utf16 "Plugin Manager" := by
      simp only [label, hdn, if_neg hne]
    rw [general asciiCase (utf16 "plug") p hp hr hd hh, hl]
    decide

/-- C3, amended, at the sample app-manager: the filter `PLUG` keeps `Plugin Manager`,
drops `Zeta`, and gives the same state as the filter `plug`. -/
theorem getAndFilterPlugins_text_filter_witness :
    (getAndFilterPlugins asciiCase (.str (utf16 "PLUG")) (construct sampleManager [])).activePlugins
        = [pluginManagerProfile] ∧
      (getAndFilterPlugins asciiCase (.str (utf16 "PLUG"))
        (construct sampleManager [])).inactivePlugins = [] ∧
      ((zeta ∈ (getAndFilterPlugins asciiCase (.str (utf16 "PLUG"))
            (construct sampleManager [])).activePlugins ∨
          zeta ∈ (getAndFilterPlugins asciiCase (.str (utf16 "PLUG"))
            (construct sampleManager [])).inactivePlugins) ↔
        occursIgnoringCase (label zeta) (utf16 "PLUG") = true) ∧
      occursIgnoringCase (label zeta) (utf16 "PLUG") = false ∧
      occursIgnoringCase (label pluginManagerProfile) (utf16 "PLUG") = true ∧
      getAndFilterPlugins asciiCase (.str (utf16 "plug")) (construct sampleManager [])
        = getAndFilterPlugins asciiCase (.str (utf16 "PLUG")) (construct sampleManager []) :=
  ⟨by decide, by decide,
    (getAndFilterPlugins_text_filter asciiCase (utf16 "PLUG")
      (construct sampleManager [])).2.2.2.1 zeta (by decide) (by decide) (by decide) (by decide)
      (by decide) (by decide),
    by decide, by decide,
    (getAndFilterPlugins_text_filter asciiCase (utf16 "PLUG")
      (construct sampleManager [])).2.2.2.2.1 (utf16 "plug") (by decide) (by decide)
      (by decide)⟩

/-- C4: after `getAndFilterPlugins`, in `activePlugins` and in `inactivePlugins`, for
positions `i < j` the upper-cased label at `j` is not below the upper-cased label at
`i`; and, for ASCII case conversion, when the profiles are one with display name `Zeta`
followed by one with display name `alpha`, both pass the filters and both go to the same
list, that list is the `alpha` profile followed by the `Zeta` profile. -/
theorem getAndFilterPlugins_sorted {ε : Type} (cm : CaseMapping) (arg : FilterArg)
    (c : PluginManagerComponent ε) :
    (∀ (i j : Nat) (a b : Profile), i < j →
      (getAndFilterPlugins cm arg c).activePlugins[i]? = some a →
      (getAndFilterPlugins cm arg c).activePlugins[j]? = some b →
      lessThan (cm.toUpperCase (label b)) (cm.toUpperCase (label a)) = false) ∧
    (∀ (i j : Nat) (a b : Profile), i < j →
      (getAndFilterPlugins cm arg c).inactivePlugins[i]? = some a →
      (getAndFilterPlugins cm arg c).inactivePlugins[j]? = some b →
      lessThan (cm.toUpperCase (label b)) (cm.toUpperCase (label a)) = false) ∧
    (∀ pz pa : Profile, pz.displayName = some (utf16 "Zeta") →
      pa.displayName = some (utf16 "alpha") → c.appManager.getAll = [pz, pa] →
      c.filter = [] →
      c.appManager.isRequired pz.name = false → c.appManager.isDependent pz.name = false →
      pz.name ≠ utf16 "home" →
      c.appManager.isRequired pa.name = false → c.appManager.isDependent pa.name = false →
      pa.name ≠ utf16 "home" →
      ((pz.name ∈ c.appManager.actives ∧ pa.name ∈ c.appManager.actives →
          (getAndFilterPlugins asciiCase .other c).activePlugins = [pa, pz]) ∧
        (pz.name ∉ c.appManager.actives ∧ pa.name ∉ c.appManager.actives →
          (getAndFilterPlugins asciiCase .other c).inactivePlugins = [pa, pz]))) := by
  have hs := sort_sortByName_pairwise cm
    ((((c.appManager.getAll.filter (isFiltered cm (getAndFilterPlugins cm arg c).filter)).filter
      (isNotRequired c.appManager)).filter (isNotDependent c.appManager)).filter isNotHome)
  have hsub := lists_sublist cm arg c
  refine ⟨?_, ?_, ?_⟩
  · intro i j a b hij hi hj
    exact pairwise_getElem? (hs.sublist hsub.1) i j a b hij hi hj
  · intro i j a b hij hi hj
    exact pairwise_getElem? (hs.sublist hsub.2) i j a b hij hi hj
  · intro pz pa hz ha hall hf hrz hdz hhz hra hda hha
    have hnz : utf16 "Zeta" ≠ [] := by decide
    have hna : utf16 "alpha" ≠ [] := by decide
    have hlz : label pz = utf16 "Zeta" := by simp only [label, hz, if_neg hnz]
    have hla : label pa = utf16 "alpha" := by simp only [label, ha, if_neg hna]
    have hcmp : ¬ (sortByName asciiCase pz pa ≤ 0) := by
      rw [sortByName_le_zero, hlz, hla]
      decide
    have htemp : tempArray asciiCase c.appManager [] = [pa, pz] := by
      simp [tempArray, sort, hall, isFiltered, includes_nil, isNotRequired, isNotDependent,
        isNotHome, hrz, hdz, hhz, hra, hda, hha, hcmp]
    constructor
    · rintro ⟨h1, h2⟩
      simp [getAndFilterPlugins, pushEach_eq, hf, htemp, h1, h2]
    · rintro ⟨h1, h2⟩
      simp [getAndFilterPlugins, pushEach_eq, hf, htemp, h1, h2]

/-- C4, at the sample app-manager: `alpha` comes before `Zeta`. -/
theorem getAndFilterPlugins_sorted_witness :
    (getAndFilterPlugins asciiCase .other (construct sampleManager [])).inactivePlugins
        = [alpha, zeta] ∧
      lessThan (asciiCase.toUpperCase (label zeta)) (asciiCase.toUpperCase (label alpha))
        = false :=
  ⟨by decide,
    (getAndFilterPlugins_sorted asciiCase .other (construct sampleManager [])).2.1 0 1 alpha zeta
      (by decide) (by decide) (by decide)⟩

/-- C10, as stated, fails: at the sample app-manager with the filter `x`, the profile
`zeta` is in `getAll()`, is not required, not dependent and not named `home`, and is in
neither list. -/
theorem getAndFilterPlugins_union_counterexample :
    ¬ (∀ p : Profile,
      (p ∈ (getAndFilterPlugins asciiCase (.str (utf16 "x"))
            (construct sampleManager [])).activePlugins ∨
          p ∈ (getAndFilterPlugins asciiCase (.str (utf16 "x"))
            (construct sampleManager [])).inactivePlugins) ↔
        (p ∈ sampleManager.getAll ∧ sampleManager.isRequired p.name = false ∧
          sampleManager.isDependent p.name = false ∧ p.name ≠ utf16 "home")) := by
  intro h
  exact absurd ((h zeta).2 (by decide)) (by decide)

/-- C10, amended: after every `getAndFilterPlugins` call, the profiles in
`activePlugins` or `inactivePlugins` are the profiles of `getAll()` whose lower-cased
label includes the stored filter, with the required, dependent and `home` profiles
removed; no profile is in both lists; and when the stored filter is empty the listed
profiles are all of `getAll()` but the required, dependent and `home` ones. -/
theorem getAndFilterPlugins_union {ε : Type} (cm : CaseMapping) (arg : FilterArg)
    (c : PluginManagerComponent ε) (p : Profile) :
    ((p ∈ (getAndFilterPlugins cm arg c).activePlugins ∨
        p ∈ (getAndFilterPlugins cm arg c).inactivePlugins) ↔
      (p ∈ c.appManager.getAll ∧
        includes (cm.toLowerCase (label p)) (getAndFilterPlugins cm arg c).filter = true ∧
        c.appManager.isRequired p.name = false ∧ c.appManager.isDependent p.name = false ∧
        p.name ≠ utf16 "home")) ∧
    ¬ (p ∈ (getAndFilterPlugins cm arg c).activePlugins ∧
        p ∈ (getAndFilterPlugins cm arg c).inactivePlugins) ∧
    ((getAndFilterPlugins cm arg c).filter = [] →
      ((p ∈ (getAndFilterPlugins cm arg c).activePlugins ∨
          p ∈ (getAndFilterPlugins cm arg c).inactivePlugins) ↔
        (p ∈ c.appManager.getAll ∧ c.appManager.isRequired p.name = false ∧
          c.appManager.isDependent p.name = false ∧ p.name ≠ utf16 "home"))) := by
  rw [mem_activePlugins, mem_inactivePlugins, mem_tempArray]
  refine ⟨?_, ?_, ?_⟩
  · by_cases hact : p.name ∈ c.appManager.actives <;> simp [hact]
  · by_cases hact : p.name ∈ c.appManager.actives <;> simp [hact]
  · intro hf
    rw [hf]
    by_cases hact : p.name ∈ c.appManager.actives <;> simp [hact, includes_nil]

/-- C10, amended, at the sample app-manager with the empty filter: `zeta` is listed. -/
theorem getAndFilterPlugins_union_witness :
    (getAndFilterPlugins asciiCase .other (construct sampleManager [])).filter = [] ∧
      ((zeta ∈
            (getAndFilterPlugins asciiCase .other (construct sampleManager [])).activePlugins ∨
          zeta ∈
            (getAndFilterPlugins asciiCase .other (construct sampleManager [])).inactivePlugins) ↔
        (zeta ∈ sampleManager.getAll ∧ sampleManager.isRequired zeta.name = false ∧
          sampleManager.isDependent zeta.name = false ∧ zeta.name ≠ utf16 "home")) :=
  ⟨by decide,
    (getAndFilterPlugins_union asciiCase .other (construct sampleManager []) zeta).2.2
      (by decide)⟩

/-! ## Facts about events and delegated calls -/

theorem listenOnEvent_frame {ε : Type} (cm : CaseMapping) (c : PluginManagerComponent ε)
    (ev : Signal × AppManager ε) :
    (listenOnEvent cm c ev).filter = c.filter ∧ (listenOnEvent cm c ev).paq = c.paq ∧
      (listenOnEvent cm c ev).log = c.log ∧ (listenOnEvent cm c ev).appManager = ev.2 := by
  obtain ⟨sig, am⟩ := ev
  cases sig <;> simp [listenOnEvent, getAndFilterPlugins]

theorem foldl_listenOnEvent_frame {ε : Type} (cm : CaseMapping)
    (evs : List (Signal × AppManager ε)) (c : PluginManagerComponent ε) :
    (evs.foldl (listenOnEvent cm) c).filter = c.filter ∧
      (evs.foldl (listenOnEvent cm) c).paq = c.paq ∧
      (evs.foldl (listenOnEvent cm) c).log = c.log := by
  induction evs generalizing c with
  | nil => simp
  | cons ev evs ih =>
    obtain ⟨h1, h2, h3, _⟩ := listenOnEvent_frame cm c ev
    obtain ⟨i1, i2, i3⟩ := ih (listenOnEvent cm c ev)
    simp only [List.foldl_cons]
    exact ⟨i1.trans h1, i2.trans h2, i3.trans h3⟩

theorem await_result {ε α : Type} (cm : CaseMapping) (call : Call) (r : Reply ε α)
    (c : PluginManagerComponent ε) : (await cm call r c).1 = r.result := rfl

theorem await_appManager {ε α : Type} (cm : CaseMapping) (call : Call) (r : Reply ε α)
    (c : PluginManagerComponent ε) : (await cm call r c).2.appManager = r.final := rfl

theorem await_filter {ε α : Type} (cm : CaseMapping) (call : Call) (r : Reply ε α)
    (c : PluginManagerComponent ε) : (await cm call r c).2.filter = c.filter :=
  (foldl_listenOnEvent_frame cm r.emitted _).1

theorem await_paq {ε α : Type} (cm : CaseMapping) (call : Call) (r : Reply ε α)
    (c : PluginManagerComponent ε) : (await cm call r c).2.paq = c.paq :=
  (foldl_listenOnEvent_frame cm r.emitted _).2.1

theorem await_log {ε α : Type} (cm : CaseMapping) (call : Call) (r : Reply ε α)
    (c : PluginManagerComponent ε) : (await cm call r c).2.log = c.log ++ [call] :=
  (foldl_listenOnEvent_frame cm r.emitted _).2.2

theorem await_eq {ε α : Type} (cm : CaseMapping) (call : Call) (r : Reply ε α)
    (c : PluginManagerComponent ε) :
    await cm call r c = (r.result, (await cm call r c).2) := rfl

/-- The recovery sequence call by call: it stops at the first call that fails, and
after a successful deactivation its outcome is that of the second activation. -/
theorem forceReactivate_steps {ε : Type} (cm : CaseMapping) (h : Host ε) (name : JSString)
    (c : PluginManagerComponent ε) :
    (∀ e, (h.isActive name c.appManager).result = .error e →
      (forceReactivate cm h name c).1 = .error e ∧
        (forceReactivate cm h name c).2.log = c.log ++ [.isActive name]) ∧
    (∀ active, (h.isActive name c.appManager).result = .ok active →
      (∀ e, (h.deactivatePlugin name
            (markActive active name (h.isActive name c.appManager).final)).result = .error e →
        (forceReactivate cm h name c).1 = .error e ∧
          (forceReactivate cm h name c).2.log
            = c.log ++ [.isActive name, .deactivatePlugin name]) ∧
      ((h.deactivatePlugin name
            (markActive active name (h.isActive name c.appManager).final)).result = .ok () →
        (forceReactivate cm h name c).1
            = (h.activatePlugin name (h.deactivatePlugin name
                (markActive active name (h.isActive name c.appManager).final)).final).result ∧
          (forceReactivate cm h name c).2.appManager
            = (h.activatePlugin name (h.deactivatePlugin name
                (markActive active name (h.isActive name c.appManager).final)).final).final ∧
          (forceReactivate cm h name c).2.log
            = c.log ++ [.isActive name, .deactivatePlugin name, .activatePlugin name])) := by
  refine ⟨fun e hA => ?_, fun active hA => ⟨fun e hD => ?_, fun hD => ?_⟩⟩
  · unfold forceReactivate
    rw [await_eq, hA]
    exact ⟨rfl, await_log _ _ _ _⟩
  · unfold forceReactivate
    rw [await_eq, hA]
    simp only [await_appManager]
    rw [await_eq, hD]
    refine ⟨rfl, ?_⟩
    simp only [await_log, List.append_assoc, List.singleton_append]
  · unfold forceReactivate
    rw [await_eq, hA]
    simp only [await_appManager]
    rw [await_eq, hD]
    refine ⟨rfl, rfl, ?_⟩
    simp only [await_log, List.append_assoc, List.singleton_append, List.cons_append,
      List.nil_append]

/-- The method `activateP` when the first activation fails on a rendered view: the
recovery sequence runs, and the view is recomputed and the event recorded only when
it succeeds. -/
theorem activateP_of_rendered {ε : Type} (cm : CaseMapping) (h : Host ε) (name : JSString)
    (c : PluginManagerComponent ε) (message : JSString)
    (h1 : (h.activatePlugin name c.appManager).result = .error { message := some message })
    (hm : includes message (utf16 "plugin is already rendered") = true) :
    activateP cm h name c =
      match forceReactivate cm h name
          (await cm (.activatePlugin name) (h.activatePlugin name c.appManager) c).2 with
      | (.error e, c1) => (.error e, c1)
      | (.ok _, c1) =>
        (.ok (),
          { getAndFilterPlugins cm .other c1 with
            paq := (getAndFilterPlugins cm .other c1).paq ++
              [[utf16 "trackEvent", utf16 "manager", utf16 "activate", name]] }) := by
  unfold activateP tryActivate
  rw [await_eq, h1]
  simp only [hm, if_true]

/-- The method `activateP` when the first activation succeeds or fails for another
reason than a rendered view. -/
theorem activateP_of_plain {ε : Type} (cm : CaseMapping) (h : Host ε) (name : JSString)
    (c : PluginManagerComponent ε)
    (h1 : (h.activatePlugin name c.appManager).result = .ok () ∨
      ∃ message,
        (h.activatePlugin name c.appManager).result = .error { message := some message } ∧
          includes message (utf16 "plugin is already rendered") = false) :
    activateP cm h name c =
      (.ok (),
        { getAndFilterPlugins cm .other
            (await cm (.activatePlugin name) (h.activatePlugin name c.appManager) c).2 with
          paq := c.paq ++ [[utf16 "trackEvent", utf16 "manager", utf16 "activate", name]] }) := by
  have hp : (getAndFilterPlugins cm .other
      (await cm (.activatePlugin name) (h.activatePlugin name c.appManager) c).2).paq = c.paq :=
    await_paq _ _ _ _
  unfold activateP tryActivate
  rw [await_eq]
  rcases h1 with h1 | ⟨message, h1, hm⟩
  · rw [h1]
    simp only [hp]
  · rw [h1]
    simp only [hm, hp, Bool.false_eq_true, if_false]

/-! ## Command delegation: claims -/

/-- C5, as stated, fails: at the sample host with a failing deactivation, the first
`activatePlugin` call fails with a message that includes `plugin is already rendered`,
and `activateP` makes the `deactivatePlugin` call, fails, and makes no further
`activatePlugin` call. -/
theorem activateP_recovery_counterexample :
    (stuckHost.activatePlugin (utf16 "zeta") (staleManager true)).result
        = .error { message := some (utf16 "Error: plugin is already rendered") } ∧
      includes (utf16 "Error: plugin is already rendered") (utf16 "plugin is already rendered")
        = true ∧
      (activateP asciiCase stuckHost (utf16 "zeta") (construct (staleManager true) [])).1
        = .error { message := some (utf16 "cannot deactivate") } ∧
      (activateP asciiCase stuckHost (utf16 "zeta") (construct (staleManager true) [])).2.log
        = [.activatePlugin (utf16 "zeta"), .isActive (utf16 "zeta"),
            .deactivatePlugin (utf16 "zeta")] ∧
      (activateP asciiCase stuckHost (utf16 "zeta")
          (construct (staleManager true) [])).2.log.count (.activatePlugin (utf16 "zeta")) = 1 :=
  ⟨rfl, by decide, rfl, by decide, by decide⟩

/-- C5, amended: when the first `activatePlugin(name)` call of `activateP` fails with a
message that includes `plugin is already rendered`, `activateP` queries `isActive(name)`
and makes at most one `deactivatePlugin(name)` call followed by at most one further
`activatePlugin(name)` call, in that order; the `deactivatePlugin` call is made when the
query returns, the further `activatePlugin` call when the deactivation also succeeds, and
a failure of the query or of the deactivation is the failure of `activateP`.  When
`activateP` completes, both calls were made once, in that order, and `name` is in
`actives` provided a successful `activatePlugin` leaves its argument in `actives`. -/
theorem activateP_recovery {ε : Type} (cm : CaseMapping) (h : Host ε) (name : JSString)
    (c : PluginManagerComponent ε) (message : JSString)
    (h1 : (h.activatePlugin name c.appManager).result = .error { message := some message })
    (hm : includes message (utf16 "plugin is already rendered") = true) :
    ((activateP cm h name c).2.log = c.log ++ [.activatePlugin name, .isActive name] ∨
      (activateP cm h name c).2.log
        = c.log ++ [.activatePlugin name, .isActive name, .deactivatePlugin name] ∨
      (activateP cm h name c).2.log
        = c.log ++ [.activatePlugin name, .isActive name, .deactivatePlugin name,
            .activatePlugin name]) ∧
    (∀ e', (h.isActive name (h.activatePlugin name c.appManager).final).result = .error e' →
      (activateP cm h name c).1 = .error e' ∧
        (activateP cm h name c).2.log = c.log ++ [.activatePlugin name, .isActive name]) ∧
    (∀ active,
      (h.isActive name (h.activatePlugin name c.appManager).final).result = .ok active →
      (∀ e', (h.deactivatePlugin name (markActive active name
            (h.isActive name (h.activatePlugin name c.appManager).final).final)).result
          = .error e' →
        (activateP cm h name c).1 = .error e' ∧
          (activateP cm h name c).2.log
            = c.log ++ [.activatePlugin name, .isActive name, .deactivatePlugin name]) ∧
      ((h.deactivatePlugin name (markActive active name
            (h.isActive name (h.activatePlugin name c.appManager).final).final)).result
          = .ok () →
        (activateP cm h name c).2.log
          = c.log ++ [.activatePlugin name, .isActive name, .deactivatePlugin name,
              .activatePlugin name])) ∧
    ((activateP cm h name c).1 = .ok () →
      (activateP cm h name c).2.log
          = c.log ++ [.activatePlugin name, .isActive name, .deactivatePlugin name,
              .activatePlugin name] ∧
        ((∀ n am, (h.activatePlugin n am).result = .ok () →
            n ∈ (h.activatePlugin n am).final.actives) →
          name ∈ (activateP cm h name c).2.appManager.actives)) := by
  rw [activateP_of_rendered cm h name c message h1 hm]
  have hlog1 : (await cm (.activatePlugin name) (h.activatePlugin name c.appManager) c).2.log
      = c.log ++ [.activatePlugin name] := await_log _ _ _ _
  obtain ⟨sA, sB⟩ := forceReactivate_steps cm h name
    (await cm (.activatePlugin name) (h.activatePlugin name c.appManager) c).2
  simp only [await_appManager, hlog1, List.append_assoc, List.singleton_append] at sA sB
  rcases hF : forceReactivate cm h name
    (await cm (.activatePlugin name) (h.activatePlugin name c.appManager) c).2 with ⟨res, c'⟩
  rw [hF] at sA sB
  simp only at sA sB
  rcases hA : (h.isActive name (h.activatePlugin name c.appManager).final).result
    with eA | active
  · obtain ⟨r1, l1⟩ := sA eA hA
    subst r1
    refine ⟨Or.inl l1, fun e' he' => ?_, fun a ha => ?_, fun hok => ?_⟩
    · cases he'
      exact ⟨rfl, l1⟩
    · cases ha
    · cases hok
  · obtain ⟨sD, sR⟩ := sB active hA
    rcases hD : (h.deactivatePlugin name (markActive active name
        (h.isActive name (h.activatePlugin name c.appManager).final).final)).result
      with eD | u
    · obtain ⟨r1, l1⟩ := sD eD hD
      subst r1
      refine ⟨Or.inr (Or.inl l1), fun e' he' => ?_, fun a ha => ?_, fun hok => ?_⟩
      · cases he'
      · cases ha
        refine ⟨fun e' he' => ?_, fun hok => ?_⟩
        · rw [hD] at he'
          cases he'
          exact ⟨rfl, l1⟩
        · rw [hD] at hok
          cases hok
      · cases hok
    · obtain ⟨r1, a1, l1⟩ := sR hD
      have hlog : (match (res, c') with
          | (.error e, c1) => ((.error e : Except JSError Unit), c1)
          | (.ok _, c1) =>
            (.ok (),
              { getAndFilterPlugins cm .other c1 with
                paq := (getAndFilterPlugins cm .other c1).paq ++
                  [[utf16 "trackEvent", utf16 "manager", utf16 "activate", name]] })).2.log
          = c'.log := by
        cases res <;> rfl
      refine ⟨Or.inr (Or.inr (hlog.trans l1)), fun e' he' => ?_, fun a ha => ?_, fun hok => ?_⟩
      · cases he'
      · cases ha
        refine ⟨fun e' he' => ?_, fun _ => hlog.trans l1⟩
        rw [hD] at he'
        cases he'
      · refine ⟨hlog.trans l1, fun hc => ?_⟩
        cases res with
        | error e2 => cases hok
        | ok u2 =>
          show name ∈ c'.appManager.actives
          rw [a1]
          exact hc _ _ r1.symm

/-- C5, amended, at the sample host with a stale view of `zeta`: the recovery runs and
`zeta` ends in `actives`. -/
theorem activateP_recovery_witness :
    (sampleHost.activatePlugin (utf16 "zeta") (staleManager true)).result
        = .error { message := some (utf16 "Error: plugin is already rendered") } ∧
      includes (utf16 "Error: plugin is already rendered") (utf16 "plugin is already rendered")
        = true ∧
      (activateP asciiCase sampleHost (utf16 "zeta") (construct (staleManager true) [])).1
        = .ok () ∧
      (activateP asciiCase sampleHost (utf16 "zeta") (construct (staleManager true) [])).2.log
        = (construct (staleManager true) []).log ++
          [.activatePlugin (utf16 "zeta"), .isActive (utf16 "zeta"),
            .deactivatePlugin (utf16 "zeta"), .activatePlugin (utf16 "zeta")] ∧
      utf16 "zeta" ∈ (activateP asciiCase sampleHost (utf16 "zeta")
        (construct (staleManager true) [])).2.appManager.actives :=
  ⟨rfl, by decide, rfl,
    ((activateP_recovery asciiCase sampleHost (utf16 "zeta") (construct (staleManager true) [])
      (utf16 "Error: plugin is already rendered") rfl (by decide)).2.2.2 rfl).1,
    by decide⟩

/-- When the `activatePlugin(name)` call succeeds, or rejects with an error whose message
does not include `plugin is already rendered`, `activateP` completes without error, makes
no other delegated call, leaves the two lists as `getAndFilterPlugins()` computes them
from the app-manager the call left and the stored filter, and appends the one event
`trackEvent, manager, activate, name` to the analytics queue. -/
theorem activateP_swallows_message {ε : Type} (cm : CaseMapping) (h : Host ε)
    (name : JSString) (c : PluginManagerComponent ε)
    (h1 : (h.activatePlugin name c.appManager).result = .ok () ∨
      ∃ message,
        (h.activatePlugin name c.appManager).result = .error { message := some message } ∧
          includes message (utf16 "plugin is already rendered") = false) :
    (activateP cm h name c).1 = .ok () ∧
      (activateP cm h name c).2.paq
        = c.paq ++ [[utf16 "trackEvent", utf16 "manager", utf16 "activate", name]] ∧
      (activateP cm h name c).2.log = c.log ++ [.activatePlugin name] ∧
      (activateP cm h name c).2.appManager = (h.activatePlugin name c.appManager).final ∧
      (activateP cm h name c).2.filter = c.filter ∧
      (activateP cm h name c).2.activePlugins
        = (pushEach (h.activatePlugin name c.appManager).final.actives
            (tempArray cm (h.activatePlugin name c.appManager).final c.filter)).1 ∧
      (activateP cm h name c).2.inactivePlugins
        = (pushEach (h.activatePlugin name c.appManager).final.actives
            (tempArray cm (h.activatePlugin name c.appManager).final c.filter)).2 ∧
      (activateP cm h name c).2.activePlugins
        = (getAndFilterPlugins cm .other (activateP cm h name c).2).activePlugins ∧
      (activateP cm h name c).2.inactivePlugins
        = (getAndFilterPlugins cm .other (activateP cm h name c).2).inactivePlugins := by
  rw [activateP_of_plain cm h name c h1]
  have hf : (await cm (.activatePlugin name) (h.activatePlugin name c.appManager) c).2.filter
      = c.filter := await_filter _ _ _ _
  have hl : (await cm (.activatePlugin name) (h.activatePlugin name c.appManager) c).2.log
      = c.log ++ [.activatePlugin name] := await_log _ _ _ _
  refine ⟨rfl, rfl, hl, rfl, hf, ?_, ?_, ?_, ?_⟩ <;>
    simp only [getAndFilterPlugins, await_appManager, hf]

/-- At the sample host with an activation that fails for lack of rights, the failure is
swallowed and one event is recorded. -/
theorem activateP_swallows_message_sample :
    (activateP asciiCase refusingHost (utf16 "zeta") (construct (staleManager false) [])).1
        = .ok () ∧
      (activateP asciiCase refusingHost (utf16 "zeta") (construct (staleManager false) [])).2.paq
        = [[utf16 "trackEvent", utf16 "manager", utf16 "activate", utf16 "zeta"]] ∧
      (activateP asciiCase refusingHost (utf16 "zeta")
          (construct (staleManager false) [])).2.inactivePlugins = [alpha, zeta] :=
  ⟨(activateP_swallows_message asciiCase refusingHost (utf16 "zeta")
      (construct (staleManager false) []) (Or.inr ⟨_, rfl, by decide⟩)).1,
    by decide, by decide⟩

/-- When the `activatePlugin(name)` call rejects with a value that has no string
`message`, the guard of the `catch` block raises a `TypeError`: `activateP` fails with
it, after the one delegated call, without the analytics event, and with the lists as the
listeners left them during that call. -/
theorem activateP_of_bare {ε : Type} (cm : CaseMapping) (h : Host ε) (name : JSString)
    (c : PluginManagerComponent ε)
    (h1 : (h.activatePlugin name c.appManager).result = .error { message := none }) :
    (activateP cm h name c).1 = .error { message := some h.typeError } ∧
      (activateP cm h name c).2
        = (await cm (.activatePlugin name) (h.activatePlugin name c.appManager) c).2 ∧
      (activateP cm h name c).2.paq = c.paq ∧
      (activateP cm h name c).2.log = c.log ++ [.activatePlugin name] := by
  have hE : activateP cm h name c
      = (.error { message := some h.typeError },
          (await cm (.activatePlugin name) (h.activatePlugin name c.appManager) c).2) := by
    unfold activateP tryActivate
    rw [await_eq, h1]
  rw [hE]
  exact ⟨rfl, rfl, await_paq _ _ _ _, await_log _ _ _ _⟩

/-- C6, at the failing input: the sample host rejects `activatePlugin` with a value that
has no `message`, a failure that is not an already-rendered failure.  `activateP` fails
with the `TypeError` of the guard, records no analytics event and leaves both lists
empty, where `getAndFilterPlugins()` would list `alpha` and `zeta` as inactive and
`pluginManager` as active. -/
theorem activateP_bare_rejection :
    (bareRejectHost.activatePlugin (utf16 "zeta") (staleManager false)).result
        = .error { message := none } ∧
      (activateP asciiCase bareRejectHost (utf16 "zeta") (construct (staleManager false) [])).1
        = .error { message := some bareRejectHost.typeError } ∧
      (activateP asciiCase bareRejectHost (utf16 "zeta")
          (construct (staleManager false) [])).2.paq = [] ∧
      (activateP asciiCase bareRejectHost (utf16 "zeta")
          (construct (staleManager false) [])).2.activePlugins = [] ∧
      (activateP asciiCase bareRejectHost (utf16 "zeta")
          (construct (staleManager false) [])).2.inactivePlugins = [] ∧
      (getAndFilterPlugins asciiCase .other
          (activateP asciiCase bareRejectHost (utf16 "zeta")
            (construct (staleManager false) [])).2).activePlugins = [pluginManagerProfile] ∧
      (getAndFilterPlugins asciiCase .other
          (activateP asciiCase bareRejectHost (utf16 "zeta")
            (construct (staleManager false) [])).2).inactivePlugins = [alpha, zeta] :=
  ⟨rfl, rfl, by decide, by decide, by decide, by decide, by decide⟩

/-- C7: when the profile lookup of `removeP` returns (nothing, or a profile `p`), then
whatever the view removal and the engine removal do, the delegated calls are the lookup,
the `removeView` call when (and only when) a profile was found, one `engine.remove(name)`
call and then one `removeProfile(name)` call, and the outcome of `removeP` is the outcome
of that `removeProfile` call. -/
theorem removeP_best_effort {ε : Type} (cm : CaseMapping) (h : Host ε) (name : JSString)
    (c : PluginManagerComponent ε) :
    ((h.getProfile name c.appManager).result = .ok none →
      (removeP cm h name c).2.log
          = c.log ++ [.getProfile name, .engineRemove name, .removeProfile name] ∧
        (removeP cm h name c).1
          = (h.removeProfile name
              (h.engineRemove name (h.getProfile name c.appManager).final).final).result) ∧
    (∀ p : Profile, (h.getProfile name c.appManager).result = .ok (some p) →
      (removeP cm h name c).2.log
          = c.log ++ [.getProfile name, .call p.location (utf16 "removeView") (.profile p),
              .engineRemove name, .removeProfile name] ∧
        (removeP cm h name c).1
          = (h.removeProfile name
              (h.engineRemove name
                (h.call p.location (utf16 "removeView") (.profile p)
                  (h.getProfile name c.appManager).final).final).final).result) := by
  refine ⟨fun hp => ?_, fun p hp => ?_⟩
  · unfold removeP
    rw [await_eq, hp]
    refine ⟨?_, rfl⟩
    simp only [tryRemoveView, await_log, List.append_assoc, List.singleton_append,
      List.cons_append, List.nil_append]
  · unfold removeP
    rw [await_eq, hp]
    refine ⟨?_, rfl⟩
    simp only [tryRemoveView, await_log, List.append_assoc, List.singleton_append,
      List.cons_append, List.nil_append]

/-- C7, at the sample host whose view removal and engine removal fail: `removeP` of
`zeta` still removes the profile and succeeds. -/
theorem removeP_best_effort_witness :
    (failingTeardownHost.getProfile (utf16 "zeta") (staleManager false)).result
        = .ok (some zeta) ∧
      (removeP asciiCase failingTeardownHost (utf16 "zeta")
          (construct (staleManager false) [])).2.log
        = [.getProfile (utf16 "zeta"),
            .call (some (utf16 "sidePanel")) (utf16 "removeView") (.profile zeta),
            .engineRemove (utf16 "zeta"), .removeProfile (utf16 "zeta")] ∧
      (removeP asciiCase failingTeardownHost (utf16 "zeta")
          (construct (staleManager false) [])).1 = .ok () ∧
      zeta ∉ (removeP asciiCase failingTeardownHost (utf16 "zeta")
          (construct (staleManager false) [])).2.appManager.getAll :=
  ⟨rfl,
    ((removeP_best_effort asciiCase failingTeardownHost (utf16 "zeta")
      (construct (staleManager false) [])).2 zeta rfl).1,
    rfl, by decide⟩

/-! ## Recomputation after a command -/

theorem survives_iff_mem_tempArray {ε : Type} (cm : CaseMapping) (am : AppManager ε)
    (f : JSString) (p : Profile) : survives cm am f p = true ↔ p ∈ tempArray cm am f := by
  rw [mem_tempArray]
  simp only [survives, isFiltered, isNotRequired, isNotDependent, isNotHome, Bool.and_eq_true,
    decide_eq_true_eq, Bool.not_eq_true', bne_iff_ne, ne_eq]
  tauto

/-- After `getAndFilterPlugins()` the lists split the surviving profiles by `actives`. -/
theorem lists_of_getAndFilterPlugins {ε : Type} (cm : CaseMapping)
    (c0 c : PluginManagerComponent ε) (hl : c.activePlugins
      = (getAndFilterPlugins cm .other c0).activePlugins)
    (hi : c.inactivePlugins = (getAndFilterPlugins cm .other c0).inactivePlugins)
    (ha : c.appManager = c0.appManager) (hf : c.filter = c0.filter) (p : Profile) :
    (p ∈ c.activePlugins ↔
        survives cm c.appManager c.filter p = true ∧ p.name ∈ c.appManager.actives) ∧
      (p ∈ c.inactivePlugins ↔
        survives cm c.appManager c.filter p = true ∧ p.name ∉ c.appManager.actives) := by
  have hf0 : (getAndFilterPlugins cm .other c0).filter = c0.filter := rfl
  rw [hl, hi, mem_activePlugins, mem_inactivePlugins, survives_iff_mem_tempArray, ha, hf, hf0]
  exact ⟨Iff.rfl, Iff.rfl⟩

/-- A completed `activateP` ends with `getAndFilterPlugins()` and the analytics event. -/
theorem activateP_ok_shape {ε : Type} (cm : CaseMapping) (h : Host ε) (name : JSString)
    (c : PluginManagerComponent ε) (hok : (activateP cm h name c).1 = .ok ()) :
    ∃ c1 : PluginManagerComponent ε,
      (activateP cm h name c).2 =
        { getAndFilterPlugins cm .other c1 with
          paq := (getAndFilterPlugins cm .other c1).paq ++
            [[utf16 "trackEvent", utf16 "manager", utf16 "activate", name]] } := by
  unfold activateP at hok ⊢
  rcases hT : tryActivate cm h name c with ⟨res, c1⟩
  rw [hT] at hok
  cases res with
  | error e => cases hok
  | ok u => exact ⟨c1, rfl⟩

/-- When the last act of a delegated call is to emit `activate` or `deactivate`, the
component is left as `getAndFilterPlugins()` computes it from the final app-manager. -/
theorem await_of_last_signal {ε α : Type} (cm : CaseMapping) (call : Call) (r : Reply ε α)
    (c : PluginManagerComponent ε) (evs : List (Signal × AppManager ε)) (sig : Signal)
    (hsig : sig ≠ .onRegistration) (hev : r.emitted = evs ++ [(sig, r.final)]) :
    ∃ c0 : PluginManagerComponent ε, c0.filter = c.filter ∧ c0.appManager = r.final ∧
      (await cm call r c).2 = getAndFilterPlugins cm .other c0 := by
  refine ⟨{ evs.foldl (listenOnEvent cm) { c with log := c.log ++ [call] } with
    appManager := r.final }, (foldl_listenOnEvent_frame cm evs _).1, rfl, ?_⟩
  unfold await
  rw [hev, List.foldl_append]
  cases sig with
  | onRegistration => exact absurd rfl hsig
  | activate => rfl
  | deactivate => rfl

theorem deactivateP_snd {ε : Type} (cm : CaseMapping) (h : Host ε) (name : JSString)
    (c : PluginManagerComponent ε) :
    (deactivateP cm h name c).2.activePlugins
        = (await cm (.call (some (utf16 "manager")) (utf16 "deactivatePlugin") (.name name))
            (h.call (some (utf16 "manager")) (utf16 "deactivatePlugin") (.name name)
              c.appManager) c).2.activePlugins ∧
      (deactivateP cm h name c).2.inactivePlugins
        = (await cm (.call (some (utf16 "manager")) (utf16 "deactivatePlugin") (.name name))
            (h.call (some (utf16 "manager")) (utf16 "deactivatePlugin") (.name name)
              c.appManager) c).2.inactivePlugins ∧
      (deactivateP cm h name c).2.appManager
        = (h.call (some (utf16 "manager")) (utf16 "deactivatePlugin") (.name name)
            c.appManager).final ∧
      (deactivateP cm h name c).2.filter = c.filter := by
  have hf := await_filter cm (.call (some (utf16 "manager")) (utf16 "deactivatePlugin")
    (.name name)) (h.call (some (utf16 "manager")) (utf16 "deactivatePlugin") (.name name)
      c.appManager) c
  unfold deactivateP
  rw [await_eq]
  rcases (h.call (some (utf16 "manager")) (utf16 "deactivatePlugin") (.name name)
    c.appManager).result with e | u
  · exact ⟨rfl, rfl, rfl, hf⟩
  · exact ⟨rfl, rfl, rfl, hf⟩

/-- C8, as stated, fails: at the sample host, `deactivateP` of the plugin `zeta`, which
is not active, completes on the freshly constructed component; `zeta` passes the four
filters and is not in `actives`, and `inactivePlugins` does not hold it. -/
theorem commands_recompute_counterexample :
    (deactivateP asciiCase sampleHost (utf16 "zeta") (construct (staleManager false) [])).1
        = .ok () ∧
      survives asciiCase
        (deactivateP asciiCase sampleHost (utf16 "zeta")
          (construct (staleManager false) [])).2.appManager
        (deactivateP asciiCase sampleHost (utf16 "zeta")
          (construct (staleManager false) [])).2.filter zeta = true ∧
      zeta.name ∉ (deactivateP asciiCase sampleHost (utf16 "zeta")
        (construct (staleManager false) [])).2.appManager.actives ∧
      zeta ∉ (deactivateP asciiCase sampleHost (utf16 "zeta")
        (construct (staleManager false) [])).2.inactivePlugins :=
  ⟨rfl, by decide, by decide, by decide⟩

/-- C8, amended: after a completed `activateP(name)`, `activePlugins` holds exactly the
profiles that pass the four filters and whose name is in `actives` as it stands then,
and `inactivePlugins` exactly those whose name is not in it.  `deactivateP(name)` does
not recompute the lists itself: after it the same holds when the last act of the
delegated call was to emit `activate` or `deactivate`, and the lists are left as they
were when the call emitted no event. -/
theorem commands_recompute {ε : Type} (cm : CaseMapping) (h : Host ε) (name : JSString)
    (c : PluginManagerComponent ε) :
    ((activateP cm h name c).1 = .ok () → ∀ p : Profile,
      (p ∈ (activateP cm h name c).2.activePlugins ↔
        survives cm (activateP cm h name c).2.appManager (activateP cm h name c).2.filter p
            = true ∧
          p.name ∈ (activateP cm h name c).2.appManager.actives) ∧
      (p ∈ (activateP cm h name c).2.inactivePlugins ↔
        survives cm (activateP cm h name c).2.appManager (activateP cm h name c).2.filter p
            = true ∧
          p.name ∉ (activateP cm h name c).2.appManager.actives)) ∧
    (∀ (evs : List (Signal × AppManager ε)) (sig : Signal), sig ≠ .onRegistration →
      (h.call (some (utf16 "manager")) (utf16 "deactivatePlugin") (.name name)
          c.appManager).emitted
        = evs ++ [(sig, (h.call (some (utf16 "manager")) (utf16 "deactivatePlugin")
            (.name name) c.appManager).final)] →
      ∀ p : Profile,
        (p ∈ (deactivateP cm h name c).2.activePlugins ↔
          survives cm (deactivateP cm h name c).2.appManager
              (deactivateP cm h name c).2.filter p = true ∧
            p.name ∈ (deactivateP cm h name c).2.appManager.actives) ∧
        (p ∈ (deactivateP cm h name c).2.inactivePlugins ↔
          survives cm (deactivateP cm h name c).2.appManager
              (deactivateP cm h name c).2.filter p = true ∧
            p.name ∉ (deactivateP cm h name c).2.appManager.actives)) ∧
    ((h.call (some (utf16 "manager")) (utf16 "deactivatePlugin") (.name name)
          c.appManager).emitted = [] →
      (deactivateP cm h name c).2.activePlugins = c.activePlugins ∧
        (deactivateP cm h name c).2.inactivePlugins = c.inactivePlugins) := by
  refine ⟨fun hok p => ?_, fun evs sig hsig hev p => ?_, fun hev => ?_⟩
  · obtain ⟨c1, hc1⟩ := activateP_ok_shape cm h name c hok
    rw [hc1]
    exact lists_of_getAndFilterPlugins cm c1 _ rfl rfl rfl rfl p
  · obtain ⟨hA, hI, hM, hF⟩ := deactivateP_snd cm h name c
    obtain ⟨c0, hf0, ha0, hc0⟩ := await_of_last_signal cm
      (.call (some (utf16 "manager")) (utf16 "deactivatePlugin") (.name name))
      (h.call (some (utf16 "manager")) (utf16 "deactivatePlugin") (.name name) c.appManager)
      c evs sig hsig hev
    rw [hc0] at hA hI
    exact lists_of_getAndFilterPlugins cm c0 _ hA hI (hM.trans ha0.symm) (hF.trans hf0.symm) p
  · obtain ⟨hA, hI, _, _⟩ := deactivateP_snd cm h name c
    rw [hA, hI]
    unfold await
    rw [hev]
    exact ⟨rfl, rfl⟩

/-- C8, amended, at the sample host: after `activateP` of `zeta` the lists follow
`actives`, and so they do after `deactivateP` of the active plugin `pluginManager`. -/
theorem commands_recompute_witness :
    (activateP asciiCase sampleHost (utf16 "zeta") (construct (staleManager false) [])).1
        = .ok () ∧
      (zeta ∈ (activateP asciiCase sampleHost (utf16 "zeta")
            (construct (staleManager false) [])).2.activePlugins ↔
        survives asciiCase
            (activateP asciiCase sampleHost (utf16 "zeta")
              (construct (staleManager false) [])).2.appManager
            (activateP asciiCase sampleHost (utf16 "zeta")
              (construct (staleManager false) [])).2.filter zeta = true ∧
          zeta.name ∈ (activateP asciiCase sampleHost (utf16 "zeta")
            (construct (staleManager false) [])).2.appManager.actives) ∧
      (activateP asciiCase sampleHost (utf16 "zeta")
          (construct (staleManager false) [])).2.activePlugins = [pluginManagerProfile, zeta] ∧
      (deactivateP asciiCase sampleHost (utf16 "pluginManager")
          (construct (staleManager false) [])).2.inactivePlugins
        = [alpha, pluginManagerProfile, zeta] :=
  ⟨rfl,
    ((commands_recompute asciiCase sampleHost (utf16 "zeta")
      (construct (staleManager false) [])).1 rfl zeta).1,
    by decide, by decide⟩

/-! ## The stored filter -/

theorem forceReactivate_filter {ε : Type} (cm : CaseMapping) (h : Host ε) (name : JSString)
    (c : PluginManagerComponent ε) : (forceReactivate cm h name c).2.filter = c.filter := by
  have h1 := await_filter cm (.isActive name) (h.isActive name c.appManager) c
  unfold forceReactivate
  rw [await_eq]
  rcases (h.isActive name c.appManager).result with e | active
  · exact h1
  · simp only []
    rw [await_eq]
    split
    · next heq =>
      have := congrArg Prod.snd heq
      simp only at this
      rw [← this, await_filter]
      exact h1
    · next heq =>
      have := congrArg Prod.snd heq
      simp only at this
      rw [await_filter, ← this, await_filter]
      exact h1

theorem activateP_filter {ε : Type} (cm : CaseMapping) (h : Host ε) (name : JSString)
    (c : PluginManagerComponent ε) : (activateP cm h name c).2.filter = c.filter := by
  have hT : (tryActivate cm h name c).2.filter = c.filter := by
    have h1 := await_filter cm (.activatePlugin name) (h.activatePlugin name c.appManager) c
    unfold tryActivate
    rw [await_eq]
    rcases (h.activatePlugin name c.appManager).result with e | u
    · simp only []
      split
      · exact h1
      · split
        · rw [forceReactivate_filter]
          exact h1
        · exact h1
    · exact h1
  unfold activateP
  rcases hR : tryActivate cm h name c with ⟨res, c1⟩
  rw [hR] at hT
  cases res with
  | error e => exact hT
  | ok u => exact hT

theorem deactivateP_filter {ε : Type} (cm : CaseMapping) (h : Host ε) (name : JSString)
    (c : PluginManagerComponent ε) : (deactivateP cm h name c).2.filter = c.filter :=
  (deactivateP_snd cm h name c).2.2.2

theorem removeP_filter {ε : Type} (cm : CaseMapping) (h : Host ε) (name : JSString)
    (c : PluginManagerComponent ε) : (removeP cm h name c).2.filter = c.filter := by
  have h1 := await_filter cm (.getProfile name) (h.getProfile name c.appManager) c
  unfold removeP
  rw [await_eq]
  rcases (h.getProfile name c.appManager).result with e | profile
  · exact h1
  · simp only [await_filter]
    cases profile with
    | none => exact h1
    | some p => simp only [tryRemoveView, await_filter]

/-- Every command but `getAndFilterPlugins` with a string leaves the stored filter as it
is, and that one stores the lower-cased string. -/
theorem exec_filter {ε : Type} (cm : CaseMapping) (h : Host ε) (c : PluginManagerComponent ε)
    (cmd : Command ε) :
    (exec cm h c cmd).filter = c.filter ∨ ∃ f, (exec cm h c cmd).filter = cm.toLowerCase f := by
  cases cmd with
  | getAndFilterPlugins filter =>
    cases filter with
    | str f => exact Or.inr ⟨f, rfl⟩
    | other => exact Or.inl rfl
  | activateP name => exact Or.inl (activateP_filter cm h name c)
  | deactivateP name => exact Or.inl (deactivateP_filter cm h name c)
  | removeP name => exact Or.inl (removeP_filter cm h name c)
  | signal ev => exact Or.inl (listenOnEvent_frame cm c ev).1

theorem run_filter {ε : Type} (cm : CaseMapping) (h : Host ε) (history : List (Command ε))
    (c : PluginManagerComponent ε) :
    (run cm h c history).filter = c.filter ∨
      ∃ f, (run cm h c history).filter = cm.toLowerCase f := by
  induction history generalizing c with
  | nil => exact Or.inl rfl
  | cons cmd rest ih =>
    have hrun : run cm h c (cmd :: rest) = run cm h (exec cm h c cmd) rest := rfl
    rw [hrun]
    rcases ih (exec cm h c cmd) with h1 | h1
    · rcases exec_filter cm h c cmd with h2 | ⟨f, h2⟩
      · exact Or.inl (h1.trans h2)
      · exact Or.inr ⟨f, h1.trans h2⟩
    · exact Or.inr h1

theorem asciiCase_toLowerCase_idem (s : JSString) :
    asciiCase.toLowerCase (asciiCase.toLowerCase s) = asciiCase.toLowerCase s := by
  simp only [asciiCase, List.map_map]
  apply List.map_congr_left
  intro u _
  simp only [Function.comp]
  split_ifs <;> omega

/-- C9: `getAndFilterPlugins(f)` with a string `f` stores the lower-cased `f`;
`getAndFilterPlugins()` without a string leaves the stored filter `s` as it is and
computes the lists with `s`; the constructor stores the empty filter; after any history
of commands and events the stored filter is the empty filter of the constructor or a
lower-cased string, after a call with a string it is a lower-cased string whatever
follows, and so it is a fixed point of `toLowerCase` when lower-casing is idempotent and
keeps the empty string. -/
theorem stored_filter {ε : Type} (cm : CaseMapping) (h : Host ε) :
    (∀ (c : PluginManagerComponent ε) (f : JSString),
      (getAndFilterPlugins cm (.str f) c).filter = cm.toLowerCase f) ∧
    (∀ c : PluginManagerComponent ε,
      (getAndFilterPlugins cm .other c).filter = c.filter ∧
        (getAndFilterPlugins cm .other c).activePlugins
          = (pushEach c.appManager.actives (tempArray cm c.appManager c.filter)).1 ∧
        (getAndFilterPlugins cm .other c).inactivePlugins
          = (pushEach c.appManager.actives (tempArray cm c.appManager c.filter)).2) ∧
    (∀ (am : AppManager ε) (paq : List (List JSString)), (construct am paq).filter = []) ∧
    (∀ (am : AppManager ε) (paq : List (List JSString)) (history : List (Command ε)),
      (run cm h (construct am paq) history).filter = [] ∨
        ∃ f, (run cm h (construct am paq) history).filter = cm.toLowerCase f) ∧
    (∀ (c : PluginManagerComponent ε) (f : JSString) (history : List (Command ε)),
      ∃ g, (run cm h (getAndFilterPlugins cm (.str f) c) history).filter = cm.toLowerCase g) ∧
    ((∀ s, cm.toLowerCase (cm.toLowerCase s) = cm.toLowerCase s) → cm.toLowerCase [] = [] →
      ∀ (am : AppManager ε) (paq : List (List JSString)) (history : List (Command ε)),
        cm.toLowerCase (run cm h (construct am paq) history).filter
          = (run cm h (construct am paq) history).filter) := by
  refine ⟨fun _ _ => rfl, fun _ => ⟨rfl, rfl, rfl⟩, fun _ _ => rfl, fun am paq history => ?_,
    fun c f history => ?_, fun hidem hnil am paq history => ?_⟩
  · rcases run_filter cm h history (construct am paq) with h1 | h1
    · exact Or.inl h1
    · exact Or.inr h1
  · rcases run_filter cm h history (getAndFilterPlugins cm (.str f) c) with h1 | h1
    · exact ⟨f, h1⟩
    · exact h1
  · rcases run_filter cm h history (construct am paq) with h1 | ⟨f, h1⟩
    · rw [h1]
      exact hnil
    · rw [h1]
      exact hidem f

/-- C9, at the sample host with ASCII case conversion: after the filter `PLUG`, an
activation and a recomputation without argument, the stored filter is `plug`, a fixed
point of lower-casing. -/
theorem stored_filter_witness :
    (run asciiCase sampleHost (construct (staleManager false) [])
        [.getAndFilterPlugins (.str (utf16 "PLUG")), .activateP (utf16 "zeta"),
          .getAndFilterPlugins .other]).filter = utf16 "plug" ∧
      asciiCase.toLowerCase
          (run asciiCase sampleHost (construct (staleManager false) [])
            [.getAndFilterPlugins (.str (utf16 "PLUG")), .activateP (utf16 "zeta"),
              .getAndFilterPlugins .other]).filter
        = (run asciiCase sampleHost (construct (staleManager false) [])
            [.getAndFilterPlugins (.str (utf16 "PLUG")), .activateP (utf16 "zeta"),
              .getAndFilterPlugins .other]).filter :=
  ⟨by decide,
    (stored_filter asciiCase sampleHost).2.2.2.2.2 asciiCase_toLowerCase_idem rfl
      (staleManager false) [] _⟩

end PluginManager
